import Mathlib

/-!
Shallow embedding of the stock-alert system (indicators.py, alert_system.py,
data_manager.py).  Machine floats are idealised as exact rationals; the IEEE
special values NaN and ±infinity, which the indicator formulas rely on for
their edge-case behaviour, are modelled explicitly by the `PFloat` type.
-/

/-- A pandas float cell: an exact rational, +inf, -inf, or NaN. -/
inductive PFloat where
  | fin (q : ℚ)
  | inf
  | neginf
  | nan
deriving DecidableEq

/-- IEEE negation. -/
def fneg : PFloat → PFloat
  | PFloat.fin q => PFloat.fin (-q)
  | PFloat.inf => PFloat.neginf
  | PFloat.neginf => PFloat.inf
  | PFloat.nan => PFloat.nan

/-- IEEE addition (NaN propagates, inf + -inf = NaN). -/
def fadd : PFloat → PFloat → PFloat
  | PFloat.nan, _ => PFloat.nan
  | _, PFloat.nan => PFloat.nan
  | PFloat.fin a, PFloat.fin b => PFloat.fin (a + b)
  | PFloat.inf, PFloat.neginf => PFloat.nan
  | PFloat.neginf, PFloat.inf => PFloat.nan
  | PFloat.inf, _ => PFloat.inf
  | _, PFloat.inf => PFloat.inf
  | PFloat.neginf, _ => PFloat.neginf
  | _, PFloat.neginf => PFloat.neginf

/-- IEEE subtraction. -/
def fsub (a b : PFloat) : PFloat := fadd a (fneg b)

/-- IEEE multiplication (inf * 0 = NaN). -/
def fmul : PFloat → PFloat → PFloat
  | PFloat.nan, _ => PFloat.nan
  | _, PFloat.nan => PFloat.nan
  | PFloat.fin a, PFloat.fin b => PFloat.fin (a * b)
  | PFloat.inf, PFloat.fin b =>
      if b = 0 then PFloat.nan else if 0 < b then PFloat.inf else PFloat.neginf
  | PFloat.fin a, PFloat.inf =>
      if a = 0 then PFloat.nan else if 0 < a then PFloat.inf else PFloat.neginf
  | PFloat.neginf, PFloat.fin b =>
      if b = 0 then PFloat.nan else if 0 < b then PFloat.neginf else PFloat.inf
  | PFloat.fin a, PFloat.neginf =>
      if a = 0 then PFloat.nan else if 0 < a then PFloat.neginf else PFloat.inf
  | PFloat.inf, PFloat.inf => PFloat.inf
  | PFloat.inf, PFloat.neginf => PFloat.neginf
  | PFloat.neginf, PFloat.inf => PFloat.neginf
  | PFloat.neginf, PFloat.neginf => PFloat.inf

/-- IEEE division: x/0 = ±inf for x ≠ 0, 0/0 = NaN, x/inf = 0, inf/inf = NaN. -/
def fdiv : PFloat → PFloat → PFloat
  | PFloat.nan, _ => PFloat.nan
  | _, PFloat.nan => PFloat.nan
  | PFloat.fin a, PFloat.fin b =>
      if b = 0 then (if a = 0 then PFloat.nan else if 0 < a then PFloat.inf else PFloat.neginf)
      else PFloat.fin (a / b)
  | PFloat.fin _, PFloat.inf => PFloat.fin 0
  | PFloat.fin _, PFloat.neginf => PFloat.fin 0
  | PFloat.inf, PFloat.fin b => if 0 ≤ b then PFloat.inf else PFloat.neginf
  | PFloat.neginf, PFloat.fin b => if 0 ≤ b then PFloat.neginf else PFloat.inf
  | PFloat.inf, PFloat.inf => PFloat.nan
  | PFloat.inf, PFloat.neginf => PFloat.nan
  | PFloat.neginf, PFloat.inf => PFloat.nan
  | PFloat.neginf, PFloat.neginf => PFloat.nan

/-- IEEE strict greater-than as a Bool; any comparison with NaN is false. -/
def fgtB : PFloat → PFloat → Bool
  | PFloat.nan, _ => false
  | _, PFloat.nan => false
  | PFloat.fin a, PFloat.fin b => decide (b < a)
  | PFloat.inf, PFloat.inf => false
  | PFloat.inf, _ => true
  | _, PFloat.inf => false
  | PFloat.neginf, _ => false
  | PFloat.fin _, PFloat.neginf => true

/-- IEEE less-or-equal as a Bool; any comparison with NaN is false. -/
def fleB : PFloat → PFloat → Bool
  | PFloat.nan, _ => false
  | _, PFloat.nan => false
  | PFloat.fin a, PFloat.fin b => decide (a ≤ b)
  | PFloat.neginf, _ => true
  | _, PFloat.inf => true
  | PFloat.inf, _ => false
  | PFloat.fin _, PFloat.neginf => false

/-- Modelled from the spec: config.py is not under src; the spec gives the MACD
fast span default 12. -/
def MACD_FAST : ℕ := 12

/-- Modelled from the spec: config.py is not under src; the spec gives the MACD
slow span default 26. -/
def MACD_SLOW : ℕ := 26

/-- Modelled from the spec: config.py is not under src; the spec gives the MACD
signal span default 9. -/
def MACD_SIGNAL : ℕ := 9

/-- Modelled from the spec: config.py is not under src; the spec gives the RSI
period default 14. -/
def RSI_PERIOD : ℕ := 14

/-- Modelled from the spec: config.py is not under src; the spec gives the MFI
period default 14. -/
def MFI_PERIOD : ℕ := 14

/-- Modelled from the spec: config.py is not under src and the spec gives no
numeric default for the short volume MA window; the value is arbitrary, no
claim depends on it. -/
def VOLUME_MA_SHORT : ℕ := 20

/-- Modelled from the spec: config.py is not under src and the spec gives no
numeric default for the long volume MA window; the value is arbitrary, no
claim depends on it. -/
def VOLUME_MA_LONG : ℕ := 50

/-- The smoothing factor pandas derives from a span: alpha = 2/(span+1). -/
def alphaOf (span : ℕ) : ℚ := 2 / (span + 1)

/-- Running kernel of pandas ewm(span).mean() with adjust=True: it carries the
weighted numerator and the weight sum, num_t = x_t + (1-a)num_{t-1} and
den_t = 1 + (1-a)den_{t-1}, emitting num_t/den_t at every bar. -/
def ewmGo (a : ℚ) (n d : ℚ) : List ℚ → List ℚ
  | [] => []
  | x :: rest =>
      ((x + (1 - a) * n) / (1 + (1 - a) * d)) ::
        ewmGo a (x + (1 - a) * n) (1 + (1 - a) * d) rest

/-- pandas Series.ewm(span).mean() with the default adjust=True, defined from
the very first element. -/
def ewmList (a : ℚ) (xs : List ℚ) : List ℚ := ewmGo a 0 0 xs

/-- MACD line: ema_fast - ema_slow (indicators.py lines 11-15). -/
def macdLineCol (c : List ℚ) : List ℚ :=
  List.zipWith (· - ·) (ewmList (alphaOf MACD_FAST) c) (ewmList (alphaOf MACD_SLOW) c)

/-- Signal line: EMA of the MACD line (indicators.py line 18). -/
def signalLineCol (c : List ℚ) : List ℚ :=
  ewmList (alphaOf MACD_SIGNAL) (macdLineCol c)

/-- Histogram: macd_line - signal_line (indicators.py line 21). -/
def histogramCol (c : List ℚ) : List ℚ :=
  List.zipWith (· - ·) (macdLineCol c) (signalLineCol c)

/-- Kernel of the crossover flags: walks the MACD and signal columns carrying
the previous pair (none models the NaN that shift(1) puts at row 0); flag is
(macd > signal) and (prev macd <= prev signal), with a NaN comparison false. -/
def crossFlagsGo (pm ps : Option ℚ) : List ℚ → List ℚ → List Bool
  | m :: ms, s :: ss =>
      (decide (s < m) &&
        (match pm, ps with
         | some a, some b => decide (a ≤ b)
         | _, _ => false)) :: crossFlagsGo (some m) (some s) ms ss
  | _, _ => []

/-- MACD_Crossover column (indicators.py lines 28-32); 1/0 is modelled as
true/false. -/
def macdCrossoverCol (m s : List ℚ) : List Bool := crossFlagsGo none none m s

/-- Kernel of gains: delta.where(delta > 0, 0) over consecutive closes. -/
def gainsGo (prev : ℚ) : List ℚ → List ℚ
  | [] => []
  | x :: rest => (if prev < x then x - prev else 0) :: gainsGo x rest

/-- Gains column: delta[0] is NaN, and NaN > 0 is false, so row 0 is 0. -/
def gains : List ℚ → List ℚ
  | [] => []
  | x :: rest => 0 :: gainsGo x rest

/-- Kernel of losses: -delta.where(delta < 0, 0) over consecutive closes. -/
def lossesGo (prev : ℚ) : List ℚ → List ℚ
  | [] => []
  | x :: rest => (if x < prev then prev - x else 0) :: lossesGo x rest

/-- Losses column: row 0 is 0 for the same reason as in gains. -/
def losses : List ℚ → List ℚ
  | [] => []
  | x :: rest => 0 :: lossesGo x rest

/-- pandas Series.rolling(w).mean() over an all-finite column: NaN until the
window is complete, then the exact mean of the last w values. -/
def rollingMeanFP (w : ℕ) (xs : List ℚ) : List PFloat :=
  (List.range xs.length).map (fun t =>
    if t + 1 < w then PFloat.nan
    else PFloat.fin ((((xs.take (t + 1)).drop (t + 1 - w)).sum) / (w : ℚ)))

/-- pandas Series.rolling(w).sum() over a PFloat column: NaN until the window
is complete, and a NaN inside the window poisons the sum. -/
def rollingSumFP (w : ℕ) (xs : List PFloat) : List PFloat :=
  (List.range xs.length).map (fun t =>
    if t + 1 < w then PFloat.nan
    else ((xs.take (t + 1)).drop (t + 1 - w)).foldr fadd (PFloat.fin 0))

/-- rsi = 100 - 100/(1 + avg_gain/avg_loss) (indicators.py lines 54-55), with
IEEE semantics for the divisions. -/
def rsiFormula (g l : PFloat) : PFloat :=
  fsub (PFloat.fin 100) (fdiv (PFloat.fin 100) (fadd (PFloat.fin 1) (fdiv g l)))

/-- RSI column (indicators.py lines 42-57). -/
def rsiCol (c : List ℚ) : List PFloat :=
  List.zipWith rsiFormula (rollingMeanFP RSI_PERIOD (gains c))
    (rollingMeanFP RSI_PERIOD (losses c))

/-- Typical price (high + low + close) / 3 (indicators.py line 72). -/
def typicalPriceCol (h l c : List ℚ) : List ℚ :=
  List.zipWith (fun hl x => (hl + x) / 3) (List.zipWith (· + ·) h l) c

/-- Kernel of the MFI flow loop (indicators.py lines 81-90): classifies each
bar's money flow as positive / negative / neither by comparing consecutive
typical prices. -/
def flowsGo (ptp : ℚ) : List ℚ → List ℚ → List (PFloat × PFloat)
  | tp :: tps, mf :: mfs =>
      (if ptp < tp then (PFloat.fin mf, PFloat.fin 0)
       else if tp < ptp then (PFloat.fin 0, PFloat.fin mf)
       else (PFloat.fin 0, PFloat.fin 0)) :: flowsGo tp tps mfs
  | _, _ => []

/-- Positive/negative flow columns; row 0 keeps the NaN the loop never
assigns (indicators.py lines 78-79). -/
def flowCols (tp mf : List ℚ) : List (PFloat × PFloat) :=
  match tp, mf with
  | tp0 :: tps, _ :: mfs => (PFloat.nan, PFloat.nan) :: flowsGo tp0 tps mfs
  | _, _ => []

/-- mfi = 100 - 100/(1 + posSum/negSum) (indicators.py lines 97-98). -/
def mfiFormula (p n : PFloat) : PFloat :=
  fsub (PFloat.fin 100) (fdiv (PFloat.fin 100) (fadd (PFloat.fin 1) (fdiv p n)))

/-- MFI column (indicators.py lines 66-100). -/
def mfiCol (h l c v : List ℚ) : List PFloat :=
  let tp := typicalPriceCol h l c
  let fl := flowCols tp (List.zipWith (· * ·) tp v)
  List.zipWith mfiFormula (rollingSumFP MFI_PERIOD (fl.map Prod.fst))
    (rollingSumFP MFI_PERIOD (fl.map Prod.snd))

/-- Kernel of MFI_Crossover: (mfi > 50) and (previous mfi <= 50), previous of
row 0 being NaN. -/
def cross50Go (pm : PFloat) : List PFloat → List Bool
  | [] => []
  | m :: ms => (fgtB m (PFloat.fin 50) && fleB pm (PFloat.fin 50)) :: cross50Go m ms

/-- MFI_Crossover column (indicators.py lines 103-106). -/
def mfiCrossoverCol (mfi : List PFloat) : List Bool := cross50Go PFloat.nan mfi

/-- Volume_Surge column: volume > shortMA * 1.5, false where the MA is NaN
(indicators.py lines 120-122). -/
def volumeSurgeCol (v : List ℚ) : List Bool :=
  List.zipWith (fun x ma => fgtB (PFloat.fin x) (fmul ma (PFloat.fin (3 / 2)))) v
    (rollingMeanFP VOLUME_MA_SHORT v)

/-- A pandas DataFrame as the indicator code sees it: a timestamp index and
optional columns (none = the column is absent, so accessing it raises).
Columns that the pipeline keeps all-finite are rational lists; columns that
can carry NaN are PFloat lists; the 1/0 flag columns are Bool lists. -/
structure DF where
  index : List ℕ
  Open : Option (List ℚ)
  High : Option (List ℚ)
  Low : Option (List ℚ)
  Close : Option (List ℚ)
  Volume : Option (List ℚ)
  MACD : Option (List ℚ)
  MACD_Signal : Option (List ℚ)
  MACD_Histogram : Option (List ℚ)
  MACD_Crossover : Option (List Bool)
  RSI : Option (List PFloat)
  MFI : Option (List PFloat)
  MFI_Crossover : Option (List Bool)
  Volume_MA_Short : Option (List PFloat)
  Volume_MA_Long : Option (List PFloat)
  Volume_Surge : Option (List Bool)
deriving DecidableEq

/-- calculate_macd (indicators.py lines 5-37): the body reads df['Close']
first, so a missing Close raises, the except clause catches it and the input
is returned unchanged. -/
def calculate_macd (df : DF) : DF :=
  match df.Close with
  | none => df
  | some c =>
      { df with
        MACD := some (macdLineCol c)
        MACD_Signal := some (signalLineCol c)
        MACD_Histogram := some (histogramCol c)
        MACD_Crossover := some (macdCrossoverCol (macdLineCol c) (signalLineCol c)) }

/-- calculate_rsi (indicators.py lines 39-61); a missing Close is caught and
the input returned unchanged. -/
def calculate_rsi (df : DF) : DF :=
  match df.Close with
  | none => df
  | some c => { df with RSI := some (rsiCol c) }

/-- calculate_mfi (indicators.py lines 63-111): reads High, Low, Close and
Volume; if any is absent the exception is caught and the input returned
unchanged. -/
def calculate_mfi (df : DF) : DF :=
  match df.High, df.Low, df.Close, df.Volume with
  | some h, some l, some c, some v =>
      { df with
        MFI := some (mfiCol h l c v)
        MFI_Crossover := some (mfiCrossoverCol (mfiCol h l c v)) }
  | _, _, _, _ => df

/-- calculate_volume_indicators (indicators.py lines 113-127); a missing
Volume is caught and the input returned unchanged. -/
def calculate_volume_indicators (df : DF) : DF :=
  match df.Volume with
  | none => df
  | some v =>
      { df with
        Volume_MA_Short := some (rollingMeanFP VOLUME_MA_SHORT v)
        Volume_MA_Long := some (rollingMeanFP VOLUME_MA_LONG v)
        Volume_Surge := some (volumeSurgeCol v) }

/-- calculate_all_indicators (indicators.py lines 129-143). -/
def calculate_all_indicators (df : DF) : DF :=
  if df.index.isEmpty then df
  else
    calculate_volume_indicators (calculate_mfi (calculate_rsi (calculate_macd df)))

/-- Row access with a default, as in latest.get(column, 0) for a rational
column: the default is used when the column is absent. -/
def rowQ (c : Option (List ℚ)) (r : ℕ) : ℚ :=
  match c with
  | some l => l.getD r 0
  | none => 0

/-- Row access for a NaN-capable column: latest.get(column, 0) gives the
float 0 when the column is absent, and the stored cell (possibly NaN) when
present. -/
def rowFP (c : Option (List PFloat)) (r : ℕ) : PFloat :=
  match c with
  | some l => l.getD r PFloat.nan
  | none => PFloat.fin 0

/-- The three signal kinds detect_crossover_signals can emit. -/
inductive SigType where
  | macdBullishCrossover
  | mfiBullishCrossover
  | rsiOversoldRecovery
deriving DecidableEq

/-- A detected signal: kind, indicator value at the latest bar, and the
latest bar's timestamp (the dict built in indicators.py lines 183-207,
minus the presentation-only reference value). -/
structure Signal where
  sigtype : SigType
  value : PFloat
  ts : ℕ
deriving DecidableEq

/-- Timestamp of the latest bar, stock_data.index[-1]. -/
def lastTs (df : DF) : ℕ := df.index.getD (df.index.length - 1) 0

/-- detect_crossover_signals (indicators.py lines 170-209): compares only the
last two rows, appending MACD, MFI, RSI signals in that order; absent columns
default to 0 via .get, and NaN comparisons are false. -/
def detect_crossover_signals (df : DF) : List Signal :=
  if df.index.length < 2 then []
  else
    let n := df.index.length
    let ts := lastTs df
    (if rowQ df.MACD_Signal (n - 1) < rowQ df.MACD (n - 1) ∧
        rowQ df.MACD (n - 2) ≤ rowQ df.MACD_Signal (n - 2) then
      [{ sigtype := SigType.macdBullishCrossover, value := PFloat.fin (rowQ df.MACD (n - 1)),
         ts := ts }]
    else []) ++
    (if fgtB (rowFP df.MFI (n - 1)) (PFloat.fin 50) &&
        fleB (rowFP df.MFI (n - 2)) (PFloat.fin 50) then
      [{ sigtype := SigType.mfiBullishCrossover, value := rowFP df.MFI (n - 1), ts := ts }]
    else []) ++
    (if fgtB (rowFP df.RSI (n - 1)) (PFloat.fin 30) &&
        fleB (rowFP df.RSI (n - 2)) (PFloat.fin 30) then
      [{ sigtype := SigType.rsiOversoldRecovery, value := rowFP df.RSI (n - 1), ts := ts }]
    else [])

/-- The dedup key, modelling the string f"{symbol}_{type}_{latest_timestamp}"
(alert_system.py line 116) as the triple it encodes. -/
structure AlertKey where
  symbol : String
  sigtype : SigType
  ts : ℕ
deriving DecidableEq

/-- One ledger entry (alert_system.py lines 128-136); sent_at is wall-clock
presentation data and is not modelled. -/
structure AlertRecord where
  key : AlertKey
  symbol : String
  signal_type : SigType
  ts : ℕ
  price : ℚ
  signal_value : PFloat
deriving DecidableEq

/-- The record appended on a successful dispatch. -/
def mkRecord (sym : String) (s : Signal) (ts : ℕ) (price : ℚ) : AlertRecord :=
  { key := { symbol := sym, sigtype := s.sigtype, ts := ts }
    symbol := sym
    signal_type := s.sigtype
    ts := ts
    price := price
    signal_value := s.value }

/-- Closing price of the latest bar, stock_data['Close'].iloc[-1]; the claims
exercise frames whose Close column is present. -/
def lastPrice (df : DF) : ℚ := rowQ df.Close (df.index.length - 1)

/-- Number of ledger records carrying a given dedup key. -/
def countKey (log : List AlertRecord) (k : AlertKey) : ℕ :=
  (log.filter (fun r => decide (r.key = k))).length

/-- The for-loop of check_and_send_alerts (alert_system.py lines 115-143):
skip a signal whose key is already logged; otherwise, if the notifier call
succeeds, append the record and return True immediately; on notifier failure
move to the next signal; fall out of the loop with False. sendOk models the
boolean outcome of send_email_alert. -/
def checkLoop (sym : String) (ts : ℕ) (price : ℚ) (sendOk : Bool)
    (log : List AlertRecord) : List Signal → List AlertRecord × Bool
  | [] => (log, false)
  | s :: rest =>
      if log.any (fun r => decide (r.key = AlertKey.mk sym s.sigtype ts)) then
        checkLoop sym ts price sendOk log rest
      else if sendOk then (log ++ [mkRecord sym s ts price], true)
      else checkLoop sym ts price sendOk log rest

/-- check_and_send_alerts (alert_system.py lines 101-143); the ledger
self.alert_log is threaded explicitly as log. -/
def check_and_send_alerts (sym : String) (df : DF) (sendOk : Bool)
    (log : List AlertRecord) : List AlertRecord × Bool :=
  if df.index.isEmpty then (log, false)
  else
    let sigs := detect_crossover_signals df
    if sigs.isEmpty then (log, false)
    else checkLoop sym (lastTs df) (lastPrice df) sendOk log sigs

/-- One raw OHLCV bar; timestamps are hours since an epoch. -/
structure RawBar where
  ts : ℕ
  Open : ℚ
  High : ℚ
  Low : ℚ
  Close : ℚ
  Volume : ℚ
deriving DecidableEq

/-- Aggregation of one resample bucket (data_manager.py lines 125-131):
Open first, High max, Low min, Close last, Volume sum; a bucket with no
sub-bars yields the all-NaN row that dropna removes, modelled as none. -/
def aggBucket (bts : ℕ) : List RawBar → Option RawBar
  | [] => none
  | b :: rest =>
      some
        { ts := bts
          Open := b.Open
          High := rest.foldl (fun m x => max m x.High) b.High
          Low := rest.foldl (fun m x => min m x.Low) b.Low
          Close := ((rest.getLast?).getD b).Close
          Volume := b.Volume + (rest.map RawBar.Volume).sum }

/-- df.resample(period).agg({...}).dropna(): buckets are the fixed-width
intervals of length p covering the data, labelled by their start; empty
buckets disappear through dropna. -/
def resamplePeriod (p : ℕ) (bars : List RawBar) : List RawBar :=
  match bars with
  | [] => []
  | b :: _ =>
      let lo := b.ts / p
      let hi := ((bars.getLast?).getD b).ts / p
      (List.range (hi + 1 - lo)).filterMap (fun k =>
        aggBucket ((lo + k) * p) (bars.filter (fun x => x.ts / p = lo + k)))

/-- combined_df[~combined_df.index.duplicated(keep='last')]: keeps only the
last occurrence of each timestamp. -/
def dedupKeepLast : List RawBar → List RawBar
  | [] => []
  | b :: rest =>
      if rest.any (fun x => decide (x.ts = b.ts)) then dedupKeepLast rest
      else b :: dedupKeepLast rest

/-- The merge step of update_current_data (data_manager.py lines 133-135):
concat the stored series with the incoming buckets filtered to timestamps
strictly after the stored last timestamp, then drop duplicated timestamps
keeping the last occurrence.  An empty stored series returns early in the
source (line 104) before any merge. -/
def mergeSeries (existing incoming : List RawBar) : List RawBar :=
  match existing with
  | [] => []
  | e0 :: _ =>
      let lts := ((existing.getLast?).getD e0).ts
      dedupKeepLast (existing ++ incoming.filter (fun b => decide (lts < b.ts)))

/-- Bar lookup by timestamp in a series. -/
def findBar (l : List RawBar) (t : ℕ) : Option RawBar :=
  l.find? (fun b => decide (b.ts = t))

/-- Modelled from the spec: the weighted-average EMA form the spec prescribes,
value at bar t = sum over i of (1-a)^i * x[t-i] divided by the sum of the
weights (1-a)^i, i ranging over 0..t.  Stated from the spec's words to be
compared with the operational ewmList. -/
def emaSpecAt (a : ℚ) (xs : List ℚ) (t : ℕ) : ℚ :=
  (∑ i in Finset.range (t + 1), (1 - a) ^ i * xs.getD (t - i) 0) /
    (∑ i in Finset.range (t + 1), (1 - a) ^ i)

theorem ewmGo_length (a : ℚ) : ∀ (xs : List ℚ) (n d : ℚ), (ewmGo a n d xs).length = xs.length
  | [], _, _ => rfl
  | x :: rest, n, d => by
      simp [ewmGo, ewmGo_length a rest]

theorem ewmList_length (a : ℚ) (xs : List ℚ) : (ewmList a xs).length = xs.length :=
  ewmGo_length a xs 0 0

theorem macdLineCol_length (c : List ℚ) : (macdLineCol c).length = c.length := by
  simp [macdLineCol, ewmList_length]

theorem signalLineCol_length (c : List ℚ) : (signalLineCol c).length = c.length := by
  simp [signalLineCol, ewmList_length, macdLineCol_length]

theorem histogramCol_length (c : List ℚ) : (histogramCol c).length = c.length := by
  simp [histogramCol, macdLineCol_length, signalLineCol_length]

theorem ewmGo_getD (a : ℚ) :
    ∀ (xs : List ℚ) (n d : ℚ) (t : ℕ), t < xs.length →
      (ewmGo a n d xs).getD t 0 =
        ((∑ i in Finset.range (t + 1), (1 - a) ^ i * xs.getD (t - i) 0) + (1 - a) ^ (t + 1) * n) /
          ((∑ i in Finset.range (t + 1), (1 - a) ^ i) + (1 - a) ^ (t + 1) * d)
  | [], _, _, t, ht => absurd ht (by simp)
  | x :: rest, n, d, 0, _ => by
      simp [ewmGo, Finset.sum_range_one]
  | x :: rest, n, d, t + 1, ht => by
      have ht' : t < rest.length := by simpa using ht
      have ih := ewmGo_getD a rest (x + (1 - a) * n) (1 + (1 - a) * d) t ht'
      have hnum : ∑ i in Finset.range (t + 2), (1 - a) ^ i * (x :: rest).getD (t + 1 - i) 0 =
          (∑ i in Finset.range (t + 1), (1 - a) ^ i * rest.getD (t - i) 0) +
            (1 - a) ^ (t + 1) * x := by
        rw [Finset.sum_range_succ]
        congr 1
        · refine Finset.sum_congr rfl (fun i hi => ?_)
          have hi' : i ≤ t := Nat.lt_succ_iff.mp (Finset.mem_range.mp hi)
          have h2 : t + 1 - i = (t - i) + 1 := by omega
          rw [h2, List.getD_cons_succ]
        · simp
      have hden : ∑ i in Finset.range (t + 2), (1 - a) ^ i =
          (∑ i in Finset.range (t + 1), (1 - a) ^ i) + (1 - a) ^ (t + 1) :=
        Finset.sum_range_succ _ _
      calc (ewmGo a n d (x :: rest)).getD (t + 1) 0
          = (ewmGo a (x + (1 - a) * n) (1 + (1 - a) * d) rest).getD t 0 := by
            simp [ewmGo]
        _ = _ := by
            rw [ih, hnum, hden]
            congr 1 <;> ring

theorem ewmList_eq_emaSpec (a : ℚ) (xs : List ℚ) (t : ℕ) (ht : t < xs.length) :
    (ewmList a xs).getD t 0 = emaSpecAt a xs t := by
  have h := ewmGo_getD a xs 0 0 t ht
  simpa [ewmList, emaSpecAt] using h

theorem getD_zipWith_sub (as bs : List ℚ) (t : ℕ) (h1 : t < as.length) (h2 : t < bs.length) :
    (List.zipWith (· - ·) as bs).getD t 0 = as.getD t 0 - bs.getD t 0 := by
  have hz : t < (List.zipWith (fun a b => a - b) as bs).length := by
    simp [List.length_zipWith]; omega
  rw [List.getD_eq_getElem _ _ hz, List.getD_eq_getElem _ _ h1, List.getD_eq_getElem _ _ h2,
    List.getElem_zipWith]

/-- C7: the EMAs used for MACD are the adjust=True weighted-average form: at
every bar t the fast and slow EMAs of the closes, and the signal-line EMA of
the MACD line, equal the sum of (1-alpha)^i weighted values normalized by the
weight sum, with alpha = 2/(span+1); the MACD line is fastEMA - slowEMA and
the histogram MACD - signal pointwise, and all five columns carry a value for
every bar from the very first one (full length, no warm-up gap). -/
theorem macd_ema_weighted_form (c : List ℚ) (t : ℕ) (ht : t < c.length) :
    (ewmList (alphaOf MACD_FAST) c).getD t 0 = emaSpecAt (alphaOf MACD_FAST) c t ∧
    (ewmList (alphaOf MACD_SLOW) c).getD t 0 = emaSpecAt (alphaOf MACD_SLOW) c t ∧
    (signalLineCol c).getD t 0 = emaSpecAt (alphaOf MACD_SIGNAL) (macdLineCol c) t ∧
    (macdLineCol c).getD t 0 =
      (ewmList (alphaOf MACD_FAST) c).getD t 0 - (ewmList (alphaOf MACD_SLOW) c).getD t 0 ∧
    (histogramCol c).getD t 0 = (macdLineCol c).getD t 0 - (signalLineCol c).getD t 0 ∧
    (macdLineCol c).length = c.length ∧
    (signalLineCol c).length = c.length ∧
    (histogramCol c).length = c.length := by
  have hm : t < (macdLineCol c).length := by rw [macdLineCol_length]; exact ht
  have hs : t < (signalLineCol c).length := by rw [signalLineCol_length]; exact ht
  refine ⟨ewmList_eq_emaSpec _ c t ht, ewmList_eq_emaSpec _ c t ht,
    ewmList_eq_emaSpec _ (macdLineCol c) t hm, ?_, ?_,
    macdLineCol_length c, signalLineCol_length c, histogramCol_length c⟩
  · exact getD_zipWith_sub _ _ t (by rw [ewmList_length]; exact ht)
      (by rw [ewmList_length]; exact ht)
  · exact getD_zipWith_sub _ _ t hm hs

/-- Witness for C7 at the concrete series [1, 2] and bar 1. -/
theorem macd_ema_weighted_form_witness :
    (ewmList (alphaOf MACD_FAST) [1, 2]).getD 1 0 = emaSpecAt (alphaOf MACD_FAST) [1, 2] 1 ∧
    (ewmList (alphaOf MACD_SLOW) [1, 2]).getD 1 0 = emaSpecAt (alphaOf MACD_SLOW) [1, 2] 1 ∧
    (signalLineCol [1, 2]).getD 1 0 = emaSpecAt (alphaOf MACD_SIGNAL) (macdLineCol [1, 2]) 1 ∧
    (macdLineCol [1, 2]).getD 1 0 =
      (ewmList (alphaOf MACD_FAST) [1, 2]).getD 1 0 -
        (ewmList (alphaOf MACD_SLOW) [1, 2]).getD 1 0 ∧
    (histogramCol [1, 2]).getD 1 0 =
      (macdLineCol [1, 2]).getD 1 0 - (signalLineCol [1, 2]).getD 1 0 ∧
    (macdLineCol [1, 2]).length = ([1, 2] : List ℚ).length ∧
    (signalLineCol [1, 2]).length = ([1, 2] : List ℚ).length ∧
    (histogramCol [1, 2]).length = ([1, 2] : List ℚ).length :=
  macd_ema_weighted_form [1, 2] 1 (by decide)

theorem crossFlagsGo_getD_succ :
    ∀ (m s : List ℚ) (pm ps : Option ℚ) (t : ℕ), t + 1 < m.length → t + 1 < s.length →
      (crossFlagsGo pm ps m s).getD (t + 1) false =
        (decide (s.getD (t + 1) 0 < m.getD (t + 1) 0) && decide (m.getD t 0 ≤ s.getD t 0))
  | [], _, _, _, _, hm, _ => absurd hm (by simp)
  | _ :: _, [], _, _, _, _, hs => absurd hs (by simp)
  | m0 :: m1, s0 :: s1, pm, ps, 0, hm, hs => by
      match m1, s1, hm, hs with
      | m2 :: _, s2 :: _, _, _ => simp [crossFlagsGo]
  | m0 :: m1, s0 :: s1, pm, ps, t + 1, hm, hs => by
      have hm' : t + 1 < m1.length := by simpa using hm
      have hs' : t + 1 < s1.length := by simpa using hs
      have ih := crossFlagsGo_getD_succ m1 s1 (some m0) (some s0) t hm' hs'
      simpa [crossFlagsGo] using ih

theorem crossFlagsGo_getD_zero (m s : List ℚ) :
    (crossFlagsGo none none m s).getD 0 false = false := by
  match m, s with
  | [], _ => rfl
  | _ :: _, [] => rfl
  | m0 :: m1, s0 :: s1 => simp [crossFlagsGo]

/-- C8: the stored MACD-crossover flag at bar t+1 is true exactly when
MACD[t+1] > signal[t+1] and MACD[t] <= signal[t]; at bar 0 the flag is false
because shift(1) makes the previous operands NaN there (the only place an
operand of the comparison is undefined, since the adjust=True EMAs are
total). -/
theorem macd_crossover_iff (c : List ℚ) (t : ℕ) (ht : t + 1 < c.length) :
    ((macdCrossoverCol (macdLineCol c) (signalLineCol c)).getD (t + 1) false = true ↔
      ((signalLineCol c).getD (t + 1) 0 < (macdLineCol c).getD (t + 1) 0 ∧
        (macdLineCol c).getD t 0 ≤ (signalLineCol c).getD t 0)) ∧
    (macdCrossoverCol (macdLineCol c) (signalLineCol c)).getD 0 false = false := by
  have hm : t + 1 < (macdLineCol c).length := by rw [macdLineCol_length]; exact ht
  have hs : t + 1 < (signalLineCol c).length := by rw [signalLineCol_length]; exact ht
  constructor
  · rw [macdCrossoverCol, crossFlagsGo_getD_succ _ _ _ _ t hm hs]
    simp
  · exact crossFlagsGo_getD_zero _ _

/-- Witness for C8 at the concrete series [1, 2] and bar 1. -/
theorem macd_crossover_iff_witness :
    ((macdCrossoverCol (macdLineCol [1, 2]) (signalLineCol [1, 2])).getD 1 false = true ↔
      ((signalLineCol [1, 2]).getD 1 0 < (macdLineCol [1, 2]).getD 1 0 ∧
        (macdLineCol [1, 2]).getD 0 0 ≤ (signalLineCol [1, 2]).getD 0 0)) ∧
    (macdCrossoverCol (macdLineCol [1, 2]) (signalLineCol [1, 2])).getD 0 false = false :=
  macd_crossover_iff [1, 2] 0 (by decide)

theorem gainsGo_length (p : ℚ) : ∀ xs : List ℚ, (gainsGo p xs).length = xs.length
  | [] => rfl
  | x :: rest => by simp [gainsGo, gainsGo_length x rest]

theorem gains_length : ∀ c : List ℚ, (gains c).length = c.length
  | [] => rfl
  | x :: rest => by simp [gains, gainsGo_length]

theorem lossesGo_length (p : ℚ) : ∀ xs : List ℚ, (lossesGo p xs).length = xs.length
  | [] => rfl
  | x :: rest => by simp [lossesGo, lossesGo_length x rest]

theorem losses_length : ∀ c : List ℚ, (losses c).length = c.length
  | [] => rfl
  | x :: rest => by simp [losses, lossesGo_length]

theorem rollingMeanFP_length (w : ℕ) (xs : List ℚ) :
    (rollingMeanFP w xs).length = xs.length := by
  simp [rollingMeanFP]

theorem getD_range_map {α : Type} (f : ℕ → α) (n t : ℕ) (d : α) (ht : t < n) :
    (((List.range n).map f).getD t d) = f t := by
  have h : t < ((List.range n).map f).length := by simpa using ht
  rw [List.getD_eq_getElem _ _ h, List.getElem_map]
  simp

theorem getD_zipWith_fp (f : PFloat → PFloat → PFloat) (as bs : List PFloat) (t : ℕ)
    (h1 : t < as.length) (h2 : t < bs.length) :
    (List.zipWith f as bs).getD t PFloat.nan = f (as.getD t PFloat.nan) (bs.getD t PFloat.nan) := by
  have hz : t < (List.zipWith f as bs).length := by simp [List.length_zipWith]; omega
  rw [List.getD_eq_getElem _ _ hz, List.getD_eq_getElem _ _ h1, List.getD_eq_getElem _ _ h2,
    List.getElem_zipWith]

theorem rollingMeanFP_getD (w : ℕ) (xs : List ℚ) (t : ℕ) (ht : t < xs.length) :
    (rollingMeanFP w xs).getD t PFloat.nan =
      if t + 1 < w then PFloat.nan
      else PFloat.fin ((((xs.take (t + 1)).drop (t + 1 - w)).sum) / (w : ℚ)) := by
  rw [rollingMeanFP]
  exact getD_range_map _ _ _ _ ht

theorem rsiCol_getD (c : List ℚ) (t : ℕ) (ht : t < c.length) :
    (rsiCol c).getD t PFloat.nan =
      rsiFormula ((rollingMeanFP RSI_PERIOD (gains c)).getD t PFloat.nan)
        ((rollingMeanFP RSI_PERIOD (losses c)).getD t PFloat.nan) := by
  refine getD_zipWith_fp _ _ _ t ?_ ?_
  · rw [rollingMeanFP_length, gains_length]; exact ht
  · rw [rollingMeanFP_length, losses_length]; exact ht

theorem fdiv_pos_zero (g : ℚ) (hg : 0 < g) :
    fdiv (PFloat.fin g) (PFloat.fin 0) = PFloat.inf := by
  simp [fdiv, hg, hg.ne']

theorem rsiFormula_fin_zero_loss (g : ℚ) (hg : 0 < g) :
    rsiFormula (PFloat.fin g) (PFloat.fin 0) = PFloat.fin 100 := by
  rw [rsiFormula, fdiv_pos_zero g hg]
  norm_num [fadd, fdiv, fsub, fneg]

theorem rsiFormula_flat : rsiFormula (PFloat.fin 0) (PFloat.fin 0) = PFloat.nan := by decide

/-- C6: at any bar whose RSI rolling window is complete, an average loss of
exactly 0 with a strictly positive average gain makes the RSI exactly 100
(the 0-division gives +inf and the formula collapses), and a flat window
(average gain and loss both 0) makes the RSI NaN, which is not 0, not 50 and
not 100. -/
theorem rsi_edge_cases (c : List ℚ) (t : ℕ) (ht : t < c.length) (hw : RSI_PERIOD ≤ t + 1) :
    (∀ g : ℚ,
      (rollingMeanFP RSI_PERIOD (losses c)).getD t PFloat.nan = PFloat.fin 0 →
      (rollingMeanFP RSI_PERIOD (gains c)).getD t PFloat.nan = PFloat.fin g → 0 < g →
      (rsiCol c).getD t PFloat.nan = PFloat.fin 100) ∧
    ((rollingMeanFP RSI_PERIOD (gains c)).getD t PFloat.nan = PFloat.fin 0 →
      (rollingMeanFP RSI_PERIOD (losses c)).getD t PFloat.nan = PFloat.fin 0 →
      (rsiCol c).getD t PFloat.nan = PFloat.nan ∧
      (rsiCol c).getD t PFloat.nan ≠ PFloat.fin 0 ∧
      (rsiCol c).getD t PFloat.nan ≠ PFloat.fin 50 ∧
      (rsiCol c).getD t PFloat.nan ≠ PFloat.fin 100) := by
  constructor
  · intro g hL hG hg
    rw [rsiCol_getD c t ht, hL, hG]
    exact rsiFormula_fin_zero_loss g hg
  · intro hG hL
    have h := rsiCol_getD c t ht
    rw [hL, hG, rsiFormula_flat] at h
    refine ⟨h, ?_, ?_, ?_⟩ <;> rw [h] <;> intro hc <;> exact PFloat.noConfusion hc

/-- A strictly rising 14-bar close series (positive gains, zero losses). -/
def cUp : List ℚ := [1, 2, 3, 4, 5, 6, 7, 8, 9, 10, 11, 12, 13, 14]

/-- A flat 14-bar close series (zero gains and losses). -/
def cFlat : List ℚ := List.replicate 14 100

/-- Witness for C6: the rising series gives RSI exactly 100, the flat series
gives NaN, at bar 13 where the window is first complete. -/
theorem rsi_edge_cases_witness :
    (rsiCol cUp).getD 13 PFloat.nan = PFloat.fin 100 ∧
    (rsiCol cFlat).getD 13 PFloat.nan = PFloat.nan := by
  have hlu : 13 < cUp.length := by decide
  have hlf : 13 < cFlat.length := by decide
  have hL : (rollingMeanFP RSI_PERIOD (losses cUp)).getD 13 PFloat.nan = PFloat.fin 0 := by
    rw [rollingMeanFP_getD _ _ _ (by rw [losses_length]; exact hlu)]
    norm_num [cUp, losses, lossesGo, RSI_PERIOD]
  have hG : (rollingMeanFP RSI_PERIOD (gains cUp)).getD 13 PFloat.nan = PFloat.fin (13 / 14) := by
    rw [rollingMeanFP_getD _ _ _ (by rw [gains_length]; exact hlu)]
    norm_num [cUp, gains, gainsGo, RSI_PERIOD]
  have hGf : (rollingMeanFP RSI_PERIOD (gains cFlat)).getD 13 PFloat.nan = PFloat.fin 0 := by
    rw [rollingMeanFP_getD _ _ _ (by rw [gains_length]; exact hlf)]
    norm_num [cFlat, gains, gainsGo, RSI_PERIOD, List.replicate]
  have hLf : (rollingMeanFP RSI_PERIOD (losses cFlat)).getD 13 PFloat.nan = PFloat.fin 0 := by
    rw [rollingMeanFP_getD _ _ _ (by rw [losses_length]; exact hlf)]
    norm_num [cFlat, losses, lossesGo, RSI_PERIOD, List.replicate]
  exact ⟨(rsi_edge_cases cUp 13 hlu (by decide)).1 (13 / 14) hL hG (by norm_num),
    ((rsi_edge_cases cFlat 13 hlf (by decide)).2 hGf hLf).1⟩

theorem countKey_append_single (log : List AlertRecord) (r : AlertRecord) (k : AlertKey)
    (h : r.key ≠ k) : countKey (log ++ [r]) k = countKey log k := by
  simp [countKey, List.filter_append, h]

theorem countKey_pos_mem (log : List AlertRecord) (k : AlertKey) (h : 1 ≤ countKey log k) :
    ∃ r ∈ log, r.key = k := by
  obtain ⟨r, hr⟩ := List.exists_mem_of_length_pos h
  have hm := List.mem_filter.mp hr
  exact ⟨r, hm.1, of_decide_eq_true hm.2⟩

theorem checkLoop_countKey (sym : String) (ts : ℕ) (price : ℚ) (sendOk : Bool) (k : AlertKey)
    (log : List AlertRecord) (hk : 1 ≤ countKey log k) :
    ∀ sigs : List Signal, countKey (checkLoop sym ts price sendOk log sigs).1 k = countKey log k
  | [] => rfl
  | s :: rest => by
      cases hmem : log.any (fun r => decide (r.key = AlertKey.mk sym s.sigtype ts)) with
      | true =>
          simp only [checkLoop, hmem, if_true]
          exact checkLoop_countKey sym ts price sendOk k log hk rest
      | false =>
          cases hs : sendOk with
          | false =>
              simp only [checkLoop, hmem, Bool.false_eq_true, if_false]
              exact checkLoop_countKey sym ts price false k log hk rest
          | true =>
              simp only [checkLoop, hmem, Bool.false_eq_true, if_false, if_true]
              have hne : (mkRecord sym s ts price).key ≠ k := by
                intro he
                obtain ⟨r₀, hr₀, hr₀k⟩ := countKey_pos_mem log k hk
                have hall := List.any_eq_false.mp hmem r₀ hr₀
                apply hall
                rw [decide_eq_true_iff, hr₀k, ← he]
                rfl
              exact countKey_append_single log _ k hne

/-- C1: if a first call to check_and_send_alerts on a symbol successfully
dispatches a signal whose dedup key k was absent (the ledger then holds
exactly one record for k), a second call on the same symbol with the
unchanged latest bar performs no dispatch and no write for k: across the
pair of calls the ledger gains exactly one record for that key. -/
theorem alert_dedup_exactly_once (sym : String) (df : DF) (s₂ : Bool) (k : AlertKey)
    (log : List AlertRecord)
    (h0 : countKey log k = 0)
    (h1 : (check_and_send_alerts sym df true log).2 = true)
    (hk : countKey (check_and_send_alerts sym df true log).1 k = 1) :
    countKey (check_and_send_alerts sym df s₂ (check_and_send_alerts sym df true log).1).1 k = 1 := by
  rw [check_and_send_alerts]
  by_cases he : df.index.isEmpty
  · simp only [he, if_true]
    exact hk
  · simp only [he, Bool.false_eq_true, if_false]
    by_cases hsig : (detect_crossover_signals df).isEmpty
    · simp only [hsig, if_true]
      exact hk
    · simp only [hsig, Bool.false_eq_true, if_false]
      rw [checkLoop_countKey sym (lastTs df) (lastPrice df) s₂ k _ (le_of_eq hk.symm)]
      exact hk

/-- Input frame for the C1 witness: two bars with a fresh MACD bullish
crossover on the latest bar. -/
def df1 : DF :=
  { index := [0, 4], Open := none, High := none, Low := none,
    Close := some [10, 11], Volume := none,
    MACD := some [0, 1], MACD_Signal := some [0, 0],
    MACD_Histogram := none, MACD_Crossover := none,
    RSI := none, MFI := none, MFI_Crossover := none,
    Volume_MA_Short := none, Volume_MA_Long := none, Volume_Surge := none }

/-- Witness for C1: a fresh MACD crossover on df1 is dispatched once and the
repeated scan leaves exactly one record for its key. -/
theorem alert_dedup_exactly_once_witness :
    countKey (check_and_send_alerts "X" df1 true
        (check_and_send_alerts "X" df1 true []).1).1
      (AlertKey.mk "X" SigType.macdBullishCrossover 4) = 1 :=
  alert_dedup_exactly_once "X" df1 true (AlertKey.mk "X" SigType.macdBullishCrossover 4) []
    (by decide) (by decide) (by decide)

theorem checkLoop_first_unseen (sym : String) (ts : ℕ) (price : ℚ) (log : List AlertRecord)
    (s₀ : Signal) :
    ∀ sigs : List Signal,
      sigs.find? (fun s =>
        !(log.any (fun r => decide (r.key = AlertKey.mk sym s.sigtype ts)))) = some s₀ →
      checkLoop sym ts price true log sigs = (log ++ [mkRecord sym s₀ ts price], true)
  | [], hfind => by simp at hfind
  | s :: rest, hfind => by
      cases hmem : log.any (fun r => decide (r.key = AlertKey.mk sym s.sigtype ts)) with
      | true =>
          rw [List.find?_cons_of_neg _ (by simp [hmem])] at hfind
          simp only [checkLoop, hmem, if_true]
          exact checkLoop_first_unseen sym ts price log s₀ rest hfind
      | false =>
          rw [List.find?_cons_of_pos _ (by simp [hmem])] at hfind
          simp only [checkLoop, hmem, Bool.false_eq_true, if_false, if_true]
          rw [Option.some_inj.mp hfind]

theorem detect_nonempty_two_bars (df : DF) (h : detect_crossover_signals df ≠ []) :
    2 ≤ df.index.length := by
  by_contra hlt
  apply h
  rw [detect_crossover_signals, if_pos (by omega)]

/-- C2 amended: with a succeeding notifier, one call to
check_and_send_alerts dispatches and records exactly the FIRST signal in
detector order whose dedup key is unseen, and returns immediately; later
unseen signals of the same call are neither dispatched nor recorded. -/
theorem check_and_send_first_unseen (sym : String) (df : DF) (log : List AlertRecord)
    (s₀ : Signal)
    (hfind : (detect_crossover_signals df).find? (fun s =>
        !(log.any (fun r => decide (r.key = AlertKey.mk sym s.sigtype (lastTs df))))) = some s₀) :
    check_and_send_alerts sym df true log =
      (log ++ [mkRecord sym s₀ (lastTs df) (lastPrice df)], true) := by
  have hne : detect_crossover_signals df ≠ [] := by
    intro he
    rw [he] at hfind
    simp at hfind
  have hlen := detect_nonempty_two_bars df hne
  have hie : df.index.isEmpty = false := by
    cases hi : df.index with
    | nil => rw [hi] at hlen; simp at hlen
    | cons a l => simp
  rw [check_and_send_alerts, hie]
  simp only [Bool.false_eq_true, if_false]
  rw [if_neg (by simpa using hne)]
  exact checkLoop_first_unseen sym (lastTs df) (lastPrice df) log s₀ _ hfind

/-- Input frame for the C2 counterexample: the latest bar carries both a MACD
bullish crossover and an MFI bullish crossover, neither key in the ledger. -/
def df2 : DF :=
  { df1 with MFI := some [PFloat.fin 40, PFloat.fin 60] }

/-- Counterexample to C2: df2 yields two signals, both keys unseen and the
notifier succeeding, yet a single call appends only one record and the MFI
signal's key is still absent from the ledger, contradicting the claim that
all unseen signals are dispatched and recorded in one call. -/
theorem check_and_send_skips_second_signal :
    (detect_crossover_signals df2).length = 2 ∧
    (check_and_send_alerts "X" df2 true []).2 = true ∧
    (check_and_send_alerts "X" df2 true []).1.length = 1 ∧
    countKey (check_and_send_alerts "X" df2 true []).1
      (AlertKey.mk "X" SigType.mfiBullishCrossover 4) = 0 := by
  refine ⟨by decide, by decide, by decide, by decide⟩

/-- Witness for the amended C2: on df2 the first unseen signal (the MACD
one) is exactly what gets recorded. -/
theorem check_and_send_first_unseen_witness :
    check_and_send_alerts "X" df2 true [] =
      ([mkRecord "X"
          { sigtype := SigType.macdBullishCrossover, value := PFloat.fin 1, ts := 4 } 4 11], true) :=
  check_and_send_first_unseen "X" df2 []
    { sigtype := SigType.macdBullishCrossover, value := PFloat.fin 1, ts := 4 } (by decide)

theorem getLast_getD_mem : ∀ (l : List RawBar) (d : RawBar), l ≠ [] → (l.getLast?.getD d) ∈ l
  | [], _, h => absurd rfl h
  | b :: rest, d, _ => by
      rw [List.getLast?_eq_getLast (b :: rest) (by simp)]
      exact List.getLast_mem _

theorem sorted_le_last : ∀ (l : List RawBar) (d : RawBar),
    (l.map RawBar.ts).Sorted (· < ·) → ∀ x ∈ l, x.ts ≤ (l.getLast?.getD d).ts
  | [], _, _, x, hx => absurd hx (by simp)
  | [b], _, _, x, hx => by
      simp only [List.mem_singleton] at hx
      subst hx
      simp
  | a :: b :: rest, d, hs, x, hx => by
      rw [List.map_cons, List.sorted_cons] at hs
      rw [List.getLast?_cons_cons]
      rcases List.mem_cons.mp hx with hxa | hxtail
      · subst hxa
        have hmem : (((b :: rest).getLast?).getD d) ∈ b :: rest :=
          getLast_getD_mem (b :: rest) d (by simp)
        exact le_of_lt (hs.1 _ (List.mem_map_of_mem RawBar.ts hmem))
      · exact sorted_le_last (b :: rest) d hs.2 x hxtail

theorem dedupKeepLast_eq_self : ∀ l : List RawBar,
    l.Pairwise (fun a b => a.ts ≠ b.ts) → dedupKeepLast l = l
  | [], _ => rfl
  | b :: rest, h => by
      have h1 := (List.pairwise_cons.mp h).1
      have h2 := (List.pairwise_cons.mp h).2
      have hany : rest.any (fun x => decide (x.ts = b.ts)) = false := by
        rw [List.any_eq_false]
        intro x hx
        simp only [decide_eq_true_eq]
        exact fun heq => (h1 x hx) heq.symm
      simp only [dedupKeepLast, hany, Bool.false_eq_true, if_false]
      rw [dedupKeepLast_eq_self rest h2]

theorem merge_combined_sorted (e0 : RawBar) (e' i : List RawBar)
    (he : ((e0 :: e').map RawBar.ts).Sorted (· < ·))
    (hi : (i.map RawBar.ts).Sorted (· < ·)) :
    (((e0 :: e') ++ i.filter
        (fun b => decide ((((e0 :: e').getLast?).getD e0).ts < b.ts))).map RawBar.ts).Sorted
      (· < ·) := by
  rw [List.map_append, List.Sorted, List.pairwise_append]
  refine ⟨he, ?_, ?_⟩
  · exact hi.sublist (List.Sublist.map RawBar.ts (List.filter_sublist i))
  · intro x hx y hy
    obtain ⟨bx, hbx, hbxt⟩ := List.mem_map.mp hx
    obtain ⟨cy, hcy, hcyt⟩ := List.mem_map.mp hy
    have h1 : bx.ts ≤ (((e0 :: e').getLast?).getD e0).ts :=
      sorted_le_last (e0 :: e') e0 he bx hbx
    have h2 := List.mem_filter.mp hcy
    have h3 : (((e0 :: e').getLast?).getD e0).ts < cy.ts := of_decide_eq_true h2.2
    subst hbxt
    subst hcyt
    omega

/-- C9: merging strictly-sorted incoming buckets into a strictly-sorted
stored series always yields a series with strictly increasing (hence unique)
timestamps; the pipeline never returns a series violating the invariant (no
rejection branch is ever needed: the filter to timestamps after the stored
last bar makes the concatenation sorted outright). -/
theorem merge_invariant (e i : List RawBar)
    (he : (e.map RawBar.ts).Sorted (· < ·)) (hi : (i.map RawBar.ts).Sorted (· < ·)) :
    ((mergeSeries e i).map RawBar.ts).Sorted (· < ·) := by
  cases e with
  | nil => simp [mergeSeries]
  | cons e0 e' =>
      rw [mergeSeries]
      have hcomb := merge_combined_sorted e0 e' i he hi
      rw [dedupKeepLast_eq_self _ (List.pairwise_map.mp (hcomb.imp ne_of_lt))]
      exact hcomb

theorem findBar_append_of_mem : ∀ (l₁ l₂ : List RawBar) (t : ℕ),
    t ∈ l₁.map RawBar.ts → findBar (l₁ ++ l₂) t = findBar l₁ t
  | [], _, t, h => absurd h (by simp)
  | b :: rest, l₂, t, h => by
      by_cases hb : b.ts = t
      · rw [findBar, findBar, List.cons_append, List.find?_cons_of_pos _ (by simp [hb]),
          List.find?_cons_of_pos _ (by simp [hb])]
      · rw [findBar, findBar, List.cons_append, List.find?_cons_of_neg _ (by simp [hb]),
          List.find?_cons_of_neg _ (by simp [hb])]
        have ht : t ∈ rest.map RawBar.ts := by
          have h9 : t = b.ts ∨ ∃ a ∈ rest, a.ts = t := by simpa using h
          rcases h9 with h1 | ⟨a, ha, hat⟩
          · exact absurd h1.symm hb
          · exact List.mem_map.mpr ⟨a, ha, hat⟩
        exact findBar_append_of_mem rest l₂ t ht

/-- C4 amended: incoming buckets are filtered to timestamps strictly greater
than the stored series' last timestamp before the concat, so for every
timestamp present in both series the merged series retains the previously
stored bar, not the incoming one. -/
theorem merge_keeps_existing (e i : List RawBar) (t : ℕ)
    (he : (e.map RawBar.ts).Sorted (· < ·)) (hi : (i.map RawBar.ts).Sorted (· < ·))
    (hte : t ∈ e.map RawBar.ts) (hti : t ∈ i.map RawBar.ts) :
    findBar (mergeSeries e i) t = findBar e t := by
  cases e with
  | nil => simp at hte
  | cons e0 e' =>
      rw [mergeSeries]
      have hcomb := merge_combined_sorted e0 e' i he hi
      rw [dedupKeepLast_eq_self _ (List.pairwise_map.mp (hcomb.imp ne_of_lt))]
      exact findBar_append_of_mem _ _ t hte

/-- Stored series for the C4 instances: bars at hours 0 and 4, Close 10. -/
def e4 : List RawBar := [⟨0, 1, 1, 1, 10, 1⟩, ⟨4, 1, 1, 1, 10, 1⟩]

/-- Incoming buckets for the C4 instances: a bar at hour 4 with Close 99,
colliding with the stored timestamp 4. -/
def i4 : List RawBar := [⟨4, 2, 2, 2, 99, 2⟩]

/-- Counterexample to C4: timestamp 4 is present in both the stored series
e4 and the incoming i4, yet the merge keeps the stored bar (Close 10) and
discards the incoming one (Close 99), contradicting the claim that the
incoming value wins a collision. -/
theorem merge_incoming_loses :
    (4 ∈ e4.map RawBar.ts) ∧ (4 ∈ i4.map RawBar.ts) ∧
    mergeSeries e4 i4 = e4 ∧
    findBar (mergeSeries e4 i4) 4 = some ⟨4, 1, 1, 1, 10, 1⟩ ∧
    (i4.headD ⟨0, 0, 0, 0, 0, 0⟩).Close = 99 := by
  refine ⟨by decide, by decide, by decide, by decide, by decide⟩

/-- Witness for the amended C4 at the concrete collision instance. -/
theorem merge_keeps_existing_witness :
    findBar (mergeSeries e4 i4) 4 = findBar e4 4 :=
  merge_keeps_existing e4 i4 4 (by decide) (by decide) (by decide) (by decide)

/-- Witness for C9 at a concrete sorted store and batch. -/
theorem merge_invariant_witness :
    ((mergeSeries e4 [⟨8, 2, 2, 2, 11, 2⟩, ⟨12, 3, 3, 3, 12, 3⟩]).map RawBar.ts).Sorted
      (· < ·) :=
  merge_invariant e4 [⟨8, 2, 2, 2, 11, 2⟩, ⟨12, 3, 3, 3, 12, 3⟩] (by decide) (by decide)

theorem foldl_max_le_init (f : RawBar → ℚ) :
    ∀ (l : List RawBar) (a : ℚ), a ≤ l.foldl (fun m x => max m (f x)) a
  | [], a => le_refl a
  | x :: xs, a => le_trans (le_max_left a (f x)) (foldl_max_le_init f xs (max a (f x)))

theorem foldl_max_mem_le (f : RawBar → ℚ) :
    ∀ (l : List RawBar) (a : ℚ) (z : RawBar), z ∈ l → f z ≤ l.foldl (fun m x => max m (f x)) a
  | x :: xs, a, z, hz => by
      rcases List.mem_cons.mp hz with h | h
      · subst h
        exact le_trans (le_max_right a (f z)) (foldl_max_le_init f xs (max a (f z)))
      · exact foldl_max_mem_le f xs (max a (f x)) z h

theorem foldl_max_cases (f : RawBar → ℚ) :
    ∀ (l : List RawBar) (a : ℚ),
      l.foldl (fun m x => max m (f x)) a = a ∨ l.foldl (fun m x => max m (f x)) a ∈ l.map f
  | [], a => Or.inl rfl
  | x :: xs, a => by
      rcases foldl_max_cases f xs (max a (f x)) with h | h
      · have hfold : (x :: xs).foldl (fun m y => max m (f y)) a =
            xs.foldl (fun m y => max m (f y)) (max a (f x)) := rfl
        rcases max_choice a (f x) with hm | hm
        · exact Or.inl (by rw [hfold, h, hm])
        · exact Or.inr (by rw [hfold, h, hm]; exact List.mem_cons_self _ _)
      · exact Or.inr (List.mem_cons_of_mem _ h)

theorem foldl_min_ge_init (f : RawBar → ℚ) :
    ∀ (l : List RawBar) (a : ℚ), l.foldl (fun m x => min m (f x)) a ≤ a
  | [], a => le_refl a
  | x :: xs, a => le_trans (foldl_min_ge_init f xs (min a (f x))) (min_le_left a (f x))

theorem foldl_min_mem_ge (f : RawBar → ℚ) :
    ∀ (l : List RawBar) (a : ℚ) (z : RawBar), z ∈ l → l.foldl (fun m x => min m (f x)) a ≤ f z
  | x :: xs, a, z, hz => by
      rcases List.mem_cons.mp hz with h | h
      · subst h
        exact le_trans (foldl_min_ge_init f xs (min a (f z))) (min_le_right a (f z))
      · exact foldl_min_mem_ge f xs (min a (f x)) z h

theorem foldl_min_cases (f : RawBar → ℚ) :
    ∀ (l : List RawBar) (a : ℚ),
      l.foldl (fun m x => min m (f x)) a = a ∨ l.foldl (fun m x => min m (f x)) a ∈ l.map f
  | [], a => Or.inl rfl
  | x :: xs, a => by
      rcases foldl_min_cases f xs (min a (f x)) with h | h
      · have hfold : (x :: xs).foldl (fun m y => min m (f y)) a =
            xs.foldl (fun m y => min m (f y)) (min a (f x)) := rfl
        rcases min_choice a (f x) with hm | hm
        · exact Or.inl (by rw [hfold, h, hm])
        · exact Or.inr (by rw [hfold, h, hm]; exact List.mem_cons_self _ _)
      · exact Or.inr (List.mem_cons_of_mem _ h)

/-- C3 amended: every bucket the resample emits aggregates the sub-bars that
fall in it: Open is the first sub-bar's open, Close the last sub-bar's close,
High the maximum, Low the minimum, Volume the sum; the bucket's sub-bar group
is nonempty, because only buckets with NO sub-bars are dropped (dropna
removes the all-NaN rows) — buckets with partial coverage are kept and
aggregated over the sub-bars present. -/
theorem resample_bucket_correct (p : ℕ) (bars : List RawBar) (hp : 0 < p)
    (hs : (bars.map RawBar.ts).Sorted (· < ·)) :
    ∀ o ∈ resamplePeriod p bars,
      bars.filter (fun x => x.ts / p = o.ts / p) ≠ [] ∧
      o.Open = ((bars.filter (fun x => x.ts / p = o.ts / p)).headD o).Open ∧
      o.Close = ((bars.filter (fun x => x.ts / p = o.ts / p)).getLastD o).Close ∧
      o.Volume = ((bars.filter (fun x => x.ts / p = o.ts / p)).map RawBar.Volume).sum ∧
      (∀ x ∈ bars.filter (fun x => x.ts / p = o.ts / p), x.High ≤ o.High) ∧
      o.High ∈ (bars.filter (fun x => x.ts / p = o.ts / p)).map RawBar.High ∧
      (∀ x ∈ bars.filter (fun x => x.ts / p = o.ts / p), o.Low ≤ x.Low) ∧
      o.Low ∈ (bars.filter (fun x => x.ts / p = o.ts / p)).map RawBar.Low := by
  intro o ho
  cases bars with
  | nil => simp [resamplePeriod] at ho
  | cons b0 bs =>
      rw [resamplePeriod] at ho
      obtain ⟨k, hk, hagg⟩ := List.mem_filterMap.mp ho
      cases hg : (b0 :: bs).filter (fun x => decide (x.ts / p = b0.ts / p + k)) with
      | nil =>
          rw [hg] at hagg
          exact absurd hagg (by simp [aggBucket])
      | cons g0 grest =>
          rw [hg] at hagg
          rw [aggBucket] at hagg
          have ho_eq := Option.some_inj.mp hagg
          subst ho_eq
          have hdiv : (b0.ts / p + k) * p / p = b0.ts / p + k := Nat.mul_div_cancel _ hp
          simp only [hdiv]
          rw [hg]
          refine ⟨by simp, rfl, ?_, ?_, ?_, ?_, ?_, ?_⟩
          · rw [List.getLastD_cons, List.getLastD_eq_getLast?]
          · simp
          · intro x hx
            rcases List.mem_cons.mp hx with h | h
            · subst h
              exact foldl_max_le_init RawBar.High grest x.High
            · exact foldl_max_mem_le RawBar.High grest g0.High x h
          · rcases foldl_max_cases RawBar.High grest g0.High with h | h
            · rw [h]; exact List.mem_cons_self _ _
            · exact List.mem_cons_of_mem _ (by exact_mod_cast h)
          · intro x hx
            rcases List.mem_cons.mp hx with h | h
            · subst h
              exact foldl_min_ge_init RawBar.Low grest x.Low
            · exact foldl_min_mem_ge RawBar.Low grest g0.Low x h
          · rcases foldl_min_cases RawBar.Low grest g0.Low with h | h
            · rw [h]; exact List.mem_cons_self _ _
            · exact List.mem_cons_of_mem _ (by exact_mod_cast h)

/-- A single 1-hour sub-bar at hour 5, giving partial coverage (1 of 4
sub-bars) of the 4-hour bucket starting at hour 4. -/
def bars1 : List RawBar := [⟨5, 1, 2, 0, 1, 10⟩]

/-- Counterexample to C3: a 4-hour bucket covered by a single 1-hour sub-bar
(1 of the 4 needed for full coverage) is NOT dropped: it appears in the
output aggregated from that one sub-bar, contradicting the claim that
buckets lacking full coverage are dropped. -/
theorem resample_keeps_partial_bucket :
    resamplePeriod 4 bars1 = [⟨4, 1, 2, 0, 1, 10⟩] ∧
    (bars1.filter (fun x => x.ts / 4 = 1)).length = 1 ∧ (1 : ℕ) < 4 := by
  refine ⟨?_, by decide, by decide⟩
  show resamplePeriod 4 bars1 = [⟨4, 1, 2, 0, 1, 10⟩]
  norm_num [resamplePeriod, bars1, aggBucket, List.range_succ, List.filterMap_cons, List.filter_cons]

/-- Two sub-bars both in the bucket starting at hour 0. -/
def bars3 : List RawBar := [⟨0, 1, 5, 0, 2, 10⟩, ⟨1, 2, 7, 1, 3, 20⟩]

/-- Aggregate of bars3's only bucket. -/
def o3 : RawBar := ⟨0, 1, 7, 0, 3, 30⟩

/-- Witness for the amended C3 at the concrete bucket aggregating two
sub-bars. -/
theorem resample_bucket_correct_witness :
    bars3.filter (fun x => x.ts / 4 = o3.ts / 4) ≠ [] ∧
    o3.Open = ((bars3.filter (fun x => x.ts / 4 = o3.ts / 4)).headD o3).Open ∧
    o3.Close = ((bars3.filter (fun x => x.ts / 4 = o3.ts / 4)).getLastD o3).Close ∧
    o3.Volume = ((bars3.filter (fun x => x.ts / 4 = o3.ts / 4)).map RawBar.Volume).sum ∧
    (∀ x ∈ bars3.filter (fun x => x.ts / 4 = o3.ts / 4), x.High ≤ o3.High) ∧
    o3.High ∈ (bars3.filter (fun x => x.ts / 4 = o3.ts / 4)).map RawBar.High ∧
    (∀ x ∈ bars3.filter (fun x => x.ts / 4 = o3.ts / 4), o3.Low ≤ x.Low) ∧
    o3.Low ∈ (bars3.filter (fun x => x.ts / 4 = o3.ts / 4)).map RawBar.Low :=
  resample_bucket_correct 4 bars3 (by decide) (by decide) o3
    (by norm_num [resamplePeriod, bars3, aggBucket, o3, List.range_succ, List.filterMap_cons, List.filter_cons])

theorem calculate_macd_frame (df : DF) :
    (calculate_macd df).index = df.index ∧ (calculate_macd df).Open = df.Open ∧
    (calculate_macd df).High = df.High ∧ (calculate_macd df).Low = df.Low ∧
    (calculate_macd df).Close = df.Close ∧ (calculate_macd df).Volume = df.Volume := by
  cases h : df.Close <;> simp [calculate_macd, h]

theorem calculate_rsi_frame (df : DF) :
    (calculate_rsi df).index = df.index ∧ (calculate_rsi df).Open = df.Open ∧
    (calculate_rsi df).High = df.High ∧ (calculate_rsi df).Low = df.Low ∧
    (calculate_rsi df).Close = df.Close ∧ (calculate_rsi df).Volume = df.Volume := by
  cases h : df.Close <;> simp [calculate_rsi, h]

theorem calculate_mfi_frame (df : DF) :
    (calculate_mfi df).index = df.index ∧ (calculate_mfi df).Open = df.Open ∧
    (calculate_mfi df).High = df.High ∧ (calculate_mfi df).Low = df.Low ∧
    (calculate_mfi df).Close = df.Close ∧ (calculate_mfi df).Volume = df.Volume := by
  cases hH : df.High <;> cases hL : df.Low <;> cases hC : df.Close <;> cases hV : df.Volume <;>
    simp [calculate_mfi, hH, hL, hC, hV]

theorem calculate_volume_frame (df : DF) :
    (calculate_volume_indicators df).index = df.index ∧
    (calculate_volume_indicators df).Open = df.Open ∧
    (calculate_volume_indicators df).High = df.High ∧
    (calculate_volume_indicators df).Low = df.Low ∧
    (calculate_volume_indicators df).Close = df.Close ∧
    (calculate_volume_indicators df).Volume = df.Volume := by
  cases h : df.Volume <;> simp [calculate_volume_indicators, h]

/-- C10: computing all indicators over a non-empty frame only adds indicator
columns: the timestamp index (hence row count and order) and the Open, High,
Low, Close and Volume columns of the output equal those of the input. -/
theorem calculate_all_preserves_frame (df : DF) (h : df.index ≠ []) :
    (calculate_all_indicators df).index = df.index ∧
    (calculate_all_indicators df).Open = df.Open ∧
    (calculate_all_indicators df).High = df.High ∧
    (calculate_all_indicators df).Low = df.Low ∧
    (calculate_all_indicators df).Close = df.Close ∧
    (calculate_all_indicators df).Volume = df.Volume := by
  rw [calculate_all_indicators]
  by_cases he : df.index.isEmpty = true
  · rw [if_pos he]
    exact ⟨rfl, rfl, rfl, rfl, rfl, rfl⟩
  · rw [if_neg he]
    have h1 := calculate_macd_frame df
    have h2 := calculate_rsi_frame (calculate_macd df)
    have h3 := calculate_mfi_frame (calculate_rsi (calculate_macd df))
    have h4 := calculate_volume_frame (calculate_mfi (calculate_rsi (calculate_macd df)))
    refine ⟨?_, ?_, ?_, ?_, ?_, ?_⟩
    · rw [h4.1, h3.1, h2.1, h1.1]
    · rw [h4.2.1, h3.2.1, h2.2.1, h1.2.1]
    · rw [h4.2.2.1, h3.2.2.1, h2.2.2.1, h1.2.2.1]
    · rw [h4.2.2.2.1, h3.2.2.2.1, h2.2.2.2.1, h1.2.2.2.1]
    · rw [h4.2.2.2.2.1, h3.2.2.2.2.1, h2.2.2.2.2.1, h1.2.2.2.2.1]
    · rw [h4.2.2.2.2.2, h3.2.2.2.2.2, h2.2.2.2.2.2, h1.2.2.2.2.2]

/-- A full two-bar OHLCV frame with no indicator columns yet. -/
def dfFull : DF :=
  { index := [0, 4], Open := some [1, 2], High := some [3, 4], Low := some [0, 1],
    Close := some [2, 3], Volume := some [10, 20],
    MACD := none, MACD_Signal := none, MACD_Histogram := none, MACD_Crossover := none,
    RSI := none, MFI := none, MFI_Crossover := none,
    Volume_MA_Short := none, Volume_MA_Long := none, Volume_Surge := none }

/-- Witness for C10 on a concrete full OHLCV frame. -/
theorem calculate_all_preserves_frame_witness :
    (calculate_all_indicators dfFull).index = dfFull.index ∧
    (calculate_all_indicators dfFull).Open = dfFull.Open ∧
    (calculate_all_indicators dfFull).High = dfFull.High ∧
    (calculate_all_indicators dfFull).Low = dfFull.Low ∧
    (calculate_all_indicators dfFull).Close = dfFull.Close ∧
    (calculate_all_indicators dfFull).Volume = dfFull.Volume :=
  calculate_all_preserves_frame dfFull (by decide)

theorem calculate_macd_Close_none (df : DF) (h : df.Close = none) : calculate_macd df = df := by
  simp [calculate_macd, h]

theorem calculate_rsi_Close_none (df : DF) (h : df.Close = none) : calculate_rsi df = df := by
  simp [calculate_rsi, h]

theorem calculate_mfi_Close_none (df : DF) (h : df.Close = none) : calculate_mfi df = df := by
  cases hH : df.High <;> cases hL : df.Low <;> cases hV : df.Volume <;>
    simp [calculate_mfi, hH, hL, h, hV]

theorem calculate_macd_keeps (df : DF) :
    (calculate_macd df).RSI = df.RSI ∧ (calculate_macd df).MFI = df.MFI ∧
    (calculate_macd df).MFI_Crossover = df.MFI_Crossover ∧
    (calculate_macd df).Volume_MA_Short = df.Volume_MA_Short ∧
    (calculate_macd df).Volume_MA_Long = df.Volume_MA_Long ∧
    (calculate_macd df).Volume_Surge = df.Volume_Surge := by
  cases h : df.Close <;> simp [calculate_macd, h]

theorem calculate_rsi_keeps (df : DF) :
    (calculate_rsi df).MACD = df.MACD ∧ (calculate_rsi df).MACD_Signal = df.MACD_Signal ∧
    (calculate_rsi df).MACD_Histogram = df.MACD_Histogram ∧
    (calculate_rsi df).MACD_Crossover = df.MACD_Crossover ∧
    (calculate_rsi df).MFI = df.MFI ∧ (calculate_rsi df).MFI_Crossover = df.MFI_Crossover ∧
    (calculate_rsi df).Volume_MA_Short = df.Volume_MA_Short ∧
    (calculate_rsi df).Volume_MA_Long = df.Volume_MA_Long ∧
    (calculate_rsi df).Volume_Surge = df.Volume_Surge := by
  cases h : df.Close <;> simp [calculate_rsi, h]

theorem calculate_mfi_keeps (df : DF) :
    (calculate_mfi df).MACD = df.MACD ∧ (calculate_mfi df).MACD_Signal = df.MACD_Signal ∧
    (calculate_mfi df).MACD_Histogram = df.MACD_Histogram ∧
    (calculate_mfi df).MACD_Crossover = df.MACD_Crossover ∧
    (calculate_mfi df).RSI = df.RSI ∧
    (calculate_mfi df).Volume_MA_Short = df.Volume_MA_Short ∧
    (calculate_mfi df).Volume_MA_Long = df.Volume_MA_Long ∧
    (calculate_mfi df).Volume_Surge = df.Volume_Surge := by
  cases hH : df.High <;> cases hL : df.Low <;> cases hC : df.Close <;> cases hV : df.Volume <;>
    simp [calculate_mfi, hH, hL, hC, hV]

theorem calculate_volume_keeps (df : DF) :
    (calculate_volume_indicators df).MACD = df.MACD ∧
    (calculate_volume_indicators df).MACD_Signal = df.MACD_Signal ∧
    (calculate_volume_indicators df).MACD_Histogram = df.MACD_Histogram ∧
    (calculate_volume_indicators df).MACD_Crossover = df.MACD_Crossover ∧
    (calculate_volume_indicators df).RSI = df.RSI ∧
    (calculate_volume_indicators df).MFI = df.MFI ∧
    (calculate_volume_indicators df).MFI_Crossover = df.MFI_Crossover := by
  cases h : df.Volume <;> simp [calculate_volume_indicators, h]

theorem calculate_macd_sets (df : DF) (c : List ℚ) (h : df.Close = some c) :
    (calculate_macd df).MACD = some (macdLineCol c) ∧
    (calculate_macd df).MACD_Signal = some (signalLineCol c) ∧
    (calculate_macd df).MACD_Histogram = some (histogramCol c) ∧
    (calculate_macd df).MACD_Crossover =
      some (macdCrossoverCol (macdLineCol c) (signalLineCol c)) := by
  simp [calculate_macd, h]

theorem calculate_rsi_sets (df : DF) (c : List ℚ) (h : df.Close = some c) :
    (calculate_rsi df).RSI = some (rsiCol c) := by
  simp [calculate_rsi, h]

theorem calculate_mfi_absent (df : DF)
    (h : df.High = none ∨ df.Low = none ∨ df.Close = none ∨ df.Volume = none) :
    calculate_mfi df = df := by
  cases hH : df.High <;> cases hL : df.Low <;> cases hC : df.Close <;> cases hV : df.Volume <;>
    simp_all [calculate_mfi]

theorem calculate_mfi_sets (df : DF) (hc lc cc vc : List ℚ) (hH : df.High = some hc)
    (hL : df.Low = some lc) (hC : df.Close = some cc) (hV : df.Volume = some vc) :
    (calculate_mfi df).MFI = some (mfiCol hc lc cc vc) ∧
    (calculate_mfi df).MFI_Crossover = some (mfiCrossoverCol (mfiCol hc lc cc vc)) := by
  simp [calculate_mfi, hH, hL, hC, hV]

theorem calculate_volume_absent (df : DF) (h : df.Volume = none) :
    calculate_volume_indicators df = df := by
  simp [calculate_volume_indicators, h]

theorem calculate_volume_sets (df : DF) (v : List ℚ) (h : df.Volume = some v) :
    (calculate_volume_indicators df).Volume_MA_Short = some (rollingMeanFP VOLUME_MA_SHORT v) ∧
    (calculate_volume_indicators df).Volume_MA_Long = some (rollingMeanFP VOLUME_MA_LONG v) ∧
    (calculate_volume_indicators df).Volume_Surge = some (volumeSurgeCol v) := by
  simp [calculate_volume_indicators, h]

/-- C5 amended: missing OHLCV fields never produce an error result; each
indicator calculator catches the failure and returns its input unchanged.
On any non-empty frame: the index and OHLCV columns pass through untouched;
with Close absent the MACD family and RSI columns are exactly the input's
(still absent on a raw frame), while with Close present they are all added;
with any of High/Low/Close/Volume absent the MFI columns are the input's,
while with all four present they are added; with Volume absent the volume
columns are the input's, while with Volume present they are added.  A
missing Open affects nothing: no clause depends on the Open column. -/
theorem missing_fields_no_error (df : DF) (h : df.index ≠ []) :
    ((calculate_all_indicators df).index = df.index ∧
     (calculate_all_indicators df).Open = df.Open ∧
     (calculate_all_indicators df).High = df.High ∧
     (calculate_all_indicators df).Low = df.Low ∧
     (calculate_all_indicators df).Close = df.Close ∧
     (calculate_all_indicators df).Volume = df.Volume) ∧
    (df.Close = none →
      (calculate_all_indicators df).MACD = df.MACD ∧
      (calculate_all_indicators df).MACD_Signal = df.MACD_Signal ∧
      (calculate_all_indicators df).MACD_Histogram = df.MACD_Histogram ∧
      (calculate_all_indicators df).MACD_Crossover = df.MACD_Crossover ∧
      (calculate_all_indicators df).RSI = df.RSI) ∧
    (∀ c : List ℚ, df.Close = some c →
      (calculate_all_indicators df).MACD = some (macdLineCol c) ∧
      (calculate_all_indicators df).MACD_Signal = some (signalLineCol c) ∧
      (calculate_all_indicators df).MACD_Histogram = some (histogramCol c) ∧
      (calculate_all_indicators df).MACD_Crossover =
        some (macdCrossoverCol (macdLineCol c) (signalLineCol c)) ∧
      (calculate_all_indicators df).RSI = some (rsiCol c)) ∧
    ((df.High = none ∨ df.Low = none ∨ df.Close = none ∨ df.Volume = none) →
      (calculate_all_indicators df).MFI = df.MFI ∧
      (calculate_all_indicators df).MFI_Crossover = df.MFI_Crossover) ∧
    (∀ hc lc cc vc : List ℚ, df.High = some hc → df.Low = some lc → df.Close = some cc →
      df.Volume = some vc →
      (calculate_all_indicators df).MFI = some (mfiCol hc lc cc vc) ∧
      (calculate_all_indicators df).MFI_Crossover =
        some (mfiCrossoverCol (mfiCol hc lc cc vc))) ∧
    (df.Volume = none →
      (calculate_all_indicators df).Volume_MA_Short = df.Volume_MA_Short ∧
      (calculate_all_indicators df).Volume_MA_Long = df.Volume_MA_Long ∧
      (calculate_all_indicators df).Volume_Surge = df.Volume_Surge) ∧
    (∀ v : List ℚ, df.Volume = some v →
      (calculate_all_indicators df).Volume_MA_Short = some (rollingMeanFP VOLUME_MA_SHORT v) ∧
      (calculate_all_indicators df).Volume_MA_Long = some (rollingMeanFP VOLUME_MA_LONG v) ∧
      (calculate_all_indicators df).Volume_Surge = some (volumeSurgeCol v)) := by
  have hie : df.index.isEmpty = false := by
    cases hi : df.index with
    | nil => exact absurd hi h
    | cons a l => rfl
  rw [calculate_all_indicators, hie]
  simp only [Bool.false_eq_true, if_false]
  obtain ⟨f1i, f1o, f1h, f1l, f1c, f1v⟩ := calculate_macd_frame df
  obtain ⟨f2i, f2o, f2h, f2l, f2c, f2v⟩ := calculate_rsi_frame (calculate_macd df)
  obtain ⟨f3i, f3o, f3h, f3l, f3c, f3v⟩ :=
    calculate_mfi_frame (calculate_rsi (calculate_macd df))
  obtain ⟨f4i, f4o, f4h, f4l, f4c, f4v⟩ :=
    calculate_volume_frame (calculate_mfi (calculate_rsi (calculate_macd df)))
  obtain ⟨k1r, k1m, k1mc, k1vs, k1vl, k1vg⟩ := calculate_macd_keeps df
  obtain ⟨k2a, k2b, k2c, k2d, k2m, k2mc, k2vs, k2vl, k2vg⟩ :=
    calculate_rsi_keeps (calculate_macd df)
  obtain ⟨k3a, k3b, k3c, k3d, k3r, k3vs, k3vl, k3vg⟩ :=
    calculate_mfi_keeps (calculate_rsi (calculate_macd df))
  obtain ⟨k4a, k4b, k4c, k4d, k4r, k4m, k4mc⟩ :=
    calculate_volume_keeps (calculate_mfi (calculate_rsi (calculate_macd df)))
  refine ⟨⟨?_, ?_, ?_, ?_, ?_, ?_⟩, ?_, ?_, ?_, ?_, ?_, ?_⟩
  · rw [f4i, f3i, f2i, f1i]
  · rw [f4o, f3o, f2o, f1o]
  · rw [f4h, f3h, f2h, f1h]
  · rw [f4l, f3l, f2l, f1l]
  · rw [f4c, f3c, f2c, f1c]
  · rw [f4v, f3v, f2v, f1v]
  · intro hC
    have r3 : calculate_mfi (calculate_rsi (calculate_macd df)) = df := by
      rw [calculate_macd_Close_none df hC, calculate_rsi_Close_none df hC,
        calculate_mfi_Close_none df hC]
    rw [r3]
    obtain ⟨w1, w2, w3, w4, w5, w6, w7⟩ := calculate_volume_keeps df
    exact ⟨w1, w2, w3, w4, w5⟩
  · intro c hC
    obtain ⟨s1, s2, s3, s4⟩ := calculate_macd_sets df c hC
    have s5 := calculate_rsi_sets (calculate_macd df) c (f1c.trans hC)
    exact ⟨k4a.trans (k3a.trans (k2a.trans s1)),
      k4b.trans (k3b.trans (k2b.trans s2)),
      k4c.trans (k3c.trans (k2c.trans s3)),
      k4d.trans (k3d.trans (k2d.trans s4)),
      k4r.trans (k3r.trans s5)⟩
  · intro habs
    have habs2 : (calculate_rsi (calculate_macd df)).High = none ∨
        (calculate_rsi (calculate_macd df)).Low = none ∨
        (calculate_rsi (calculate_macd df)).Close = none ∨
        (calculate_rsi (calculate_macd df)).Volume = none := by
      rcases habs with hx | hx | hx | hx
      · exact Or.inl ((f2h.trans f1h).trans hx)
      · exact Or.inr (Or.inl ((f2l.trans f1l).trans hx))
      · exact Or.inr (Or.inr (Or.inl ((f2c.trans f1c).trans hx)))
      · exact Or.inr (Or.inr (Or.inr ((f2v.trans f1v).trans hx)))
    have r3 := calculate_mfi_absent (calculate_rsi (calculate_macd df)) habs2
    exact ⟨k4m.trans ((congrArg DF.MFI r3).trans (k2m.trans k1m)),
      k4mc.trans ((congrArg DF.MFI_Crossover r3).trans (k2mc.trans k1mc))⟩
  · intro hc lc cc vc hH hL hC hV
    obtain ⟨s1, s2⟩ := calculate_mfi_sets (calculate_rsi (calculate_macd df)) hc lc cc vc
      ((f2h.trans f1h).trans hH) ((f2l.trans f1l).trans hL)
      ((f2c.trans f1c).trans hC) ((f2v.trans f1v).trans hV)
    exact ⟨k4m.trans s1, k4mc.trans s2⟩
  · intro hV
    have r4 := calculate_volume_absent (calculate_mfi (calculate_rsi (calculate_macd df)))
      ((f3v.trans (f2v.trans f1v)).trans hV)
    exact ⟨(congrArg DF.Volume_MA_Short r4).trans (k3vs.trans (k2vs.trans k1vs)),
      (congrArg DF.Volume_MA_Long r4).trans (k3vl.trans (k2vl.trans k1vl)),
      (congrArg DF.Volume_Surge r4).trans (k3vg.trans (k2vg.trans k1vg))⟩
  · intro v hV
    exact calculate_volume_sets (calculate_mfi (calculate_rsi (calculate_macd df))) v
      ((f3v.trans (f2v.trans f1v)).trans hV)

/-- A two-row frame whose Close column is absent. -/
def dfNC : DF :=
  { index := [0, 1], Open := some [1, 1], High := some [1, 1], Low := some [1, 1],
    Close := none, Volume := some [5, 6],
    MACD := none, MACD_Signal := none, MACD_Histogram := none, MACD_Crossover := none,
    RSI := none, MFI := none, MFI_Crossover := none,
    Volume_MA_Short := none, Volume_MA_Long := none, Volume_Surge := none }

/-- A two-row frame whose High column is absent (everything else present). -/
def dfNH : DF :=
  { index := [0, 1], Open := some [1, 1], High := none, Low := some [1, 1],
    Close := some [2, 3], Volume := some [5, 6],
    MACD := none, MACD_Signal := none, MACD_Histogram := none, MACD_Crossover := none,
    RSI := none, MFI := none, MFI_Crossover := none,
    Volume_MA_Short := none, Volume_MA_Long := none, Volume_Surge := none }

/-- A two-row frame whose Open column is absent (everything else present). -/
def dfNO : DF :=
  { index := [0, 1], Open := none, High := some [1, 1], Low := some [1, 1],
    Close := some [2, 3], Volume := some [5, 6],
    MACD := none, MACD_Signal := none, MACD_Histogram := none, MACD_Crossover := none,
    RSI := none, MFI := none, MFI_Crossover := none,
    Volume_MA_Short := none, Volume_MA_Long := none, Volume_Surge := none }

/-- Counterexample to C5: on a frame whose Close column is absent the
computation does not fail with an error result; it returns a normal frame
(same two rows) that simply lacks the MACD, RSI and MFI columns, while the
volume MA column, whose input is present, IS added. -/
theorem missing_close_counterexample :
    (calculate_all_indicators dfNC).MACD = none ∧
    (calculate_all_indicators dfNC).RSI = none ∧
    (calculate_all_indicators dfNC).MFI = none ∧
    (calculate_all_indicators dfNC).index = [0, 1] ∧
    (calculate_all_indicators dfNC).Volume_MA_Short.isSome = true := by
  refine ⟨by decide, by decide, by decide, by decide, by decide⟩

/-- Witness for the amended C5 on three concrete frames: Close missing (MACD,
RSI, MFI stay absent, volume MAs still added), High missing (MFI stays absent,
MACD and RSI still added), and Open missing (everything still added). -/
theorem missing_fields_no_error_witness :
    (calculate_all_indicators dfNC).MACD = none ∧
    (calculate_all_indicators dfNC).RSI = none ∧
    (calculate_all_indicators dfNC).MFI = none ∧
    (calculate_all_indicators dfNC).Volume_MA_Short =
      some (rollingMeanFP VOLUME_MA_SHORT [5, 6]) ∧
    (calculate_all_indicators dfNH).MFI = none ∧
    (calculate_all_indicators dfNH).MACD = some (macdLineCol [2, 3]) ∧
    (calculate_all_indicators dfNH).RSI = some (rsiCol [2, 3]) ∧
    (calculate_all_indicators dfNO).MFI = some (mfiCol [1, 1] [1, 1] [2, 3] [5, 6]) ∧
    (calculate_all_indicators dfNO).RSI = some (rsiCol [2, 3]) := by
  obtain ⟨-, hbC, -, hdC, -, -, hgC⟩ := missing_fields_no_error dfNC (by decide)
  obtain ⟨-, -, hcH, hdH, -, -, -⟩ := missing_fields_no_error dfNH (by decide)
  obtain ⟨-, -, hcO, -, heO, -, -⟩ := missing_fields_no_error dfNO (by decide)
  exact ⟨(hbC rfl).1, (hbC rfl).2.2.2.2, (hdC (Or.inr (Or.inr (Or.inl rfl)))).1,
    (hgC [5, 6] rfl).1, (hdH (Or.inl rfl)).1, (hcH [2, 3] rfl).1,
    (hcH [2, 3] rfl).2.2.2.2, (heO [1, 1] [1, 1] [2, 3] [5, 6] rfl rfl rfl rfl).1,
    (hcO [2, 3] rfl).2.2.2.2⟩
